import Mathlib

/-!
# E-commerce backend: data-model validation and route registration

Shallow embedding of `models/models.go`, `routes/routes.go` and `main.go`.

* Every `Validate` method of `models.go` is `validator.New().Struct(x)`: the rules live in
  the `validate:"..."` struct tags.  The tags are transcribed literally (`*.fields`) and
  run by a small interpreter of the tag language of `go-playground/validator/v10`
  (namespace `validator`).
* `routes.go` and `main.go` mutate a `*gin.Engine`; here the engine is an explicit state
  that every call takes and returns (namespace `gin`).
-/

/-! ## Values of the Go types that occur in the structs -/

namespace primitive

/-- Go `primitive.ObjectID` is `[12]byte`; an id is the 96-bit number spelled by its bytes,
so the zero value `NilObjectID` is `0`. -/
abbrev ObjectID := Fin (2 ^ 96)

/-- The zero value of `ObjectID`. -/
def NilObjectID : ObjectID := ⟨0, by decide⟩

end primitive

/-- A `float64` as far as ordering sees it: not-a-number, the two infinities, or a finite
value.  Every finite `float64` is a rational and Go compares floats exactly, so `>`, `>=`,
`<=` and `==` on finite values are the rational ones.  `-0.0` and `+0.0` compare equal in
Go and are both `finite 0`. -/
inductive Float64 where
  | nan
  | posInf
  | negInf
  | finite (q : ℚ)
deriving DecidableEq

namespace Float64

/-- Go `f > p` for a finite constant `p`. -/
def gt : Float64 → ℚ → Bool
  | nan, _ => false
  | posInf, _ => true
  | negInf, _ => false
  | finite q, p => decide (p < q)

/-- Go `f >= p` for a finite constant `p`. -/
def ge : Float64 → ℚ → Bool
  | nan, _ => false
  | posInf, _ => true
  | negInf, _ => false
  | finite q, p => decide (p ≤ q)

/-- Go `f <= p` for a finite constant `p`. -/
def le : Float64 → ℚ → Bool
  | nan, _ => false
  | posInf, _ => false
  | negInf, _ => true
  | finite q, p => decide (q ≤ p)

/-- Go `f < p` for a finite constant `p`. -/
def lt : Float64 → ℚ → Bool
  | nan, _ => false
  | posInf, _ => false
  | negInf, _ => true
  | finite q, p => decide (q < p)

/-- Go `f == 0`. -/
def isZero : Float64 → Bool
  | finite q => decide (q = 0)
  | _ => false

end Float64

namespace time

/-- Go `time.Time`, as nanoseconds since the epoch.  No validation rule reads it. -/
abbrev Time := Int

end time

/-! ## The tag language of `go-playground/validator/v10` -/

namespace validator

/-- The validation tags that occur in `models.go`.  The numeric parameters of the source
are all natural-number literals (`min=3`, `max=20`, `min=8`, `gt=0`, `min=0`, `max=5`,
`min=1`). -/
inductive Tag where
  | required
  | min (p : Nat)
  | max (p : Nat)
  | gt (p : Nat)
  | oneof (vals : List String)
  | email
  | url
deriving DecidableEq

/-- A field value, by reflect kind: `string`, `float64`, a slice of object ids (`none` is
the nil slice) and the array `primitive.ObjectID`. -/
inductive Value where
  | string (s : String)
  | float64 (f : Float64)
  | slice (xs : Option (List primitive.ObjectID))
  | array (id : primitive.ObjectID)

/-- The two baked-in format checks of the library that are not transcribed here (a regular
expression for `email`, `net/url` parsing for `url`); they are parameters of the model. -/
structure Validate where
  isEmail : String → Bool
  isURL : String → Bool

/-- Go `validator.New()`, given the library's two format checks. -/
def New (isEmail isURL : String → Bool) : Validate := ⟨isEmail, isURL⟩

/-- Go `hasValue` (tag `required`): a string is non-empty, a number is not zero, a slice is
not nil, an array is not its zero value.  (Whether `-0.0` counts as zero depends on the Go
release; the only `required` floats are prices, which `gt=0` rejects at `-0.0` anyway.) -/
def hasValue : Value → Bool
  | .string s => decide (s ≠ "")
  | .float64 f => !f.isZero
  | .slice xs => xs.isSome
  | .array id => decide (id ≠ primitive.NilObjectID)

/-- Go `isGte` (tag `min=p`): rune count of a string, length of a slice or array, value of a
number. -/
def isGte (p : Nat) : Value → Bool
  | .string s => decide (p ≤ s.length)
  | .float64 f => f.ge p
  | .slice xs => decide (p ≤ (xs.getD []).length)
  | .array _ => decide (p ≤ 12)

/-- Go `isLte` (tag `max=p`). -/
def isLte (p : Nat) : Value → Bool
  | .string s => decide (s.length ≤ p)
  | .float64 f => f.le p
  | .slice xs => decide ((xs.getD []).length ≤ p)
  | .array _ => decide (12 ≤ p)

/-- Go `isGt` (tag `gt=p`). -/
def isGt (p : Nat) : Value → Bool
  | .string s => decide (p < s.length)
  | .float64 f => f.gt p
  | .slice xs => decide (p < (xs.getD []).length)
  | .array _ => decide (p < 12)

/-- Go `isOneOf` (tag `oneof=a b c`): the string is exactly one of the listed words.  On the
other kinds of `Value` the library panics; no such field carries the tag. -/
def isOneOf (vals : List String) : Value → Bool
  | .string s => decide (s ∈ vals)
  | _ => false

/-- The check a tag stands for.  `email` and `url` are string checks; no field of another
kind carries them. -/
def Tag.fn (v : Validate) : Tag → Value → Bool
  | .required, x => hasValue x
  | .min p, x => isGte p x
  | .max p, x => isLte p x
  | .gt p, x => isGt p x
  | .oneof vals, x => isOneOf vals x
  | .email, .string s => v.isEmail s
  | .email, _ => false
  | .url, .string s => v.isURL s
  | .url, _ => false

/-- A struct field that has a `validate` tag: its Go name, its tags in the order written,
its value. -/
structure Field where
  name : String
  tags : List Tag
  value : Value

/-- One entry of `ValidationErrors`: the namespace (`User.Password`), the field and the
tag that failed, with its parameter. -/
structure FieldError where
  ns : String
  field : String
  tag : Tag
deriving DecidableEq

/-- Go `ValidationErrors`. -/
abbrev ValidationErrors := List FieldError

/-- The tags of a field are run in order and the first one that fails is reported; the
rest of the field's tags are not run. -/
def firstFailure (v : Validate) : List Tag → Value → Option Tag
  | [], _ => none
  | t :: ts, x => if t.fn v x then firstFailure v ts x else some t

/-- Go `traverseField` on a tagged, non-struct field. -/
def traverseField (v : Validate) (ns : String) (f : Field) : ValidationErrors :=
  match firstFailure v f.tags f.value with
  | none => []
  | some t => [⟨ns ++ f.name, f.name, t⟩]

/-- Go `validateStruct` on the tagged non-struct fields of a struct, in declaration order;
the errors of all fields are collected. -/
def validateStruct (v : Validate) (ns : String) : List Field → ValidationErrors
  | [] => []
  | f :: fs => traverseField v ns f ++ validateStruct v ns fs

/-- A member of a struct as the validator walks it: a tagged field, or a field whose type
is itself a struct (other than `time.Time`), here with the tagged fields of that struct.
A `required` tag on a non-pointer struct field is skipped by `validator.New()` and the
validator descends into the struct. -/
inductive Member where
  | field (f : Field)
  | nested (name : String) (fields : List Field)

/-- The errors of one member. -/
def traverseMember (v : Validate) (ns : String) : Member → ValidationErrors
  | .field f => traverseField v ns f
  | .nested name fields => validateStruct v (ns ++ name ++ ".") fields

/-- The errors of all members, in declaration order. -/
def traverseMembers (v : Validate) (ns : String) : List Member → ValidationErrors
  | [] => []
  | m :: ms => traverseMember v ns m ++ traverseMembers v ns ms

/-- Go `error`: `none` is `nil`. -/
abbrev error := Option ValidationErrors

/-- Go `(*Validate).Struct`: `nil` when no field failed, the collected errors otherwise. -/
def Validate.Struct (v : Validate) (typeName : String) (members : List Member) : error :=
  match traverseMembers v (typeName ++ ".") members with
  | [] => none
  | e :: es => some (e :: es)

end validator

/-! ## `models/models.go` -/

namespace models

open validator

/-- PaymentMethod represents the method of payment for an order. -/
abbrev PaymentMethod := String

def Digital : PaymentMethod := "Digital"
def COD : PaymentMethod := "COD"

/-- OrderStatus represents the current status of an order. -/
abbrev OrderStatus := String

def Pending : OrderStatus := "Pending"
def Shipped : OrderStatus := "Shipped"
def Delivered : OrderStatus := "Delivered"
def Canceled : OrderStatus := "Canceled"

structure Address where
  ID : primitive.ObjectID
  UserID : primitive.ObjectID
  Street : String
  City : String
  State : String
  ZipCode : String
  Country : String
  CreatedAt : time.Time
  UpdatedAt : time.Time

structure User where
  ID : primitive.ObjectID
  FirstName : String
  LastName : String
  Username : String
  Password : String
  Email : String
  Phone : String
  Address : Address
  Token : String
  RefreshToken : String
  CreatedAt : time.Time
  UpdatedAt : time.Time

structure Product where
  ID : primitive.ObjectID
  Name : String
  Description : String
  Price : Float64
  Rating : Float64
  Image : String
  CreatedAt : time.Time
  UpdatedAt : time.Time

structure Order where
  ID : primitive.ObjectID
  UserID : primitive.ObjectID
  ProductIDs : Option (List primitive.ObjectID)
  TotalPrice : Float64
  PaymentMethod : PaymentMethod
  OrderStatus : OrderStatus
  CreatedAt : time.Time
  UpdatedAt : time.Time

structure Cart where
  ID : primitive.ObjectID
  UserID : primitive.ObjectID
  ProductIDs : Option (List primitive.ObjectID)
  TotalPrice : Float64
  CreatedAt : time.Time
  UpdatedAt : time.Time

/-- The `validate` tags of `Address`. -/
def Address.fields (a : Address) : List Field :=
  [ ⟨"UserID", [.required], .array a.UserID⟩,
    ⟨"Street", [.required], .string a.Street⟩,
    ⟨"City", [.required], .string a.City⟩,
    ⟨"State", [.required], .string a.State⟩,
    ⟨"ZipCode", [.required], .string a.ZipCode⟩,
    ⟨"Country", [.required], .string a.Country⟩ ]

/-- The `validate` tags of `User`; `Address` is a struct field. -/
def User.members (u : User) : List Member :=
  [ .field ⟨"FirstName", [.required], .string u.FirstName⟩,
    .field ⟨"LastName", [.required], .string u.LastName⟩,
    .field ⟨"Username", [.required, .min 3, .max 20], .string u.Username⟩,
    .field ⟨"Password", [.required, .min 8], .string u.Password⟩,
    .field ⟨"Email", [.required, .email], .string u.Email⟩,
    .field ⟨"Phone", [.required], .string u.Phone⟩,
    .nested "Address" u.Address.fields ]

/-- The `validate` tags of `Product`. -/
def Product.fields (p : Product) : List Field :=
  [ ⟨"Name", [.required], .string p.Name⟩,
    ⟨"Description", [.required], .string p.Description⟩,
    ⟨"Price", [.required, .gt 0], .float64 p.Price⟩,
    ⟨"Rating", [.min 0, .max 5], .float64 p.Rating⟩,
    ⟨"Image", [.required, .url], .string p.Image⟩ ]

/-- The `validate` tags of `Order`. -/
def Order.fields (o : Order) : List Field :=
  [ ⟨"UserID", [.required], .array o.UserID⟩,
    ⟨"ProductIDs", [.required, .min 1], .slice o.ProductIDs⟩,
    ⟨"TotalPrice", [.required, .gt 0], .float64 o.TotalPrice⟩,
    ⟨"PaymentMethod", [.required, .oneof ["Digital", "COD"]], .string o.PaymentMethod⟩,
    ⟨"OrderStatus", [.required, .oneof ["Pending", "Shipped", "Delivered", "Canceled"]],
      .string o.OrderStatus⟩ ]

/-- The `validate` tags of `Cart`. -/
def Cart.fields (c : Cart) : List Field :=
  [ ⟨"UserID", [.required], .array c.UserID⟩,
    ⟨"TotalPrice", [.min 0], .float64 c.TotalPrice⟩ ]

/-- Validate checks if the struct is valid. -/
def User.Validate (validate : validator.Validate) (u : User) : error :=
  validate.Struct "User" u.members

/-- Validate checks if the struct is valid. -/
def Product.Validate (validate : validator.Validate) (p : Product) : error :=
  validate.Struct "Product" (p.fields.map .field)

/-- Validate checks if the struct is valid. -/
def Order.Validate (validate : validator.Validate) (o : Order) : error :=
  validate.Struct "Order" (o.fields.map .field)

/-- Validate checks if the struct is valid. -/
def Cart.Validate (validate : validator.Validate) (c : Cart) : error :=
  validate.Struct "Cart" (c.fields.map .field)

/-- Validate checks if the struct is valid. -/
def Address.Validate (validate : validator.Validate) (a : Address) : error :=
  validate.Struct "Address" (a.fields.map .field)

end models

/-! ## Paths: Go `path.Clean`, `path.Join` and gin `joinPaths` -/

namespace path

/-- The byte `/`. -/
def slash : Char := Char.ofNat 47

/-- The byte `.`. -/
def dot : Char := Char.ofNat 46

/-- The elements of a path between its slashes. -/
def splitSlash : List Char → List (List Char)
  | [] => [[]]
  | c :: cs =>
    if c = slash then [] :: splitSlash cs
    else
      match splitSlash cs with
      | [] => [[c]]
      | s :: ss => (c :: s) :: ss

/-- The element-wise rules of `Clean`: empty and `.` elements are dropped, `..` removes the
element before it, a `..` at the start of a rooted path is dropped and at the start of a
relative path is kept.  `acc` is the cleaned prefix, last element first. -/
def cleanElems (rooted : Bool) : List (List Char) → List (List Char) → List (List Char)
  | acc, [] => acc.reverse
  | acc, s :: ss =>
    if s = [] ∨ s = [dot] then cleanElems rooted acc ss
    else if s = [dot, dot] then
      match acc with
      | [] => if rooted then cleanElems rooted [] ss else cleanElems rooted [s] ss
      | t :: acc' =>
        if t = [dot, dot] then cleanElems rooted (s :: t :: acc') ss
        else cleanElems rooted acc' ss
    else cleanElems rooted (s :: acc) ss

/-- Go `path.Clean`. -/
def Clean (p : String) : String :=
  let rooted := p.data.head? = some slash
  let body := [slash].intercalate (cleanElems rooted [] (splitSlash p.data))
  if rooted then String.mk (slash :: body)
  else if body = [] then "." else String.mk body

/-- Go `path.Join` of two elements. -/
def Join (a b : String) : String :=
  if a = "" ∧ b = "" then ""
  else if a = "" then Clean b
  else if b = "" then Clean a
  else Clean (String.mk (a.data ++ slash :: b.data))

end path

/-! ## The router: `gin.Engine`, route groups and request dispatch -/

namespace controllers

/-- The handlers of package `controllers` that `routes.go` names.  A handler is an
endpoint a request can reach; what it does after that is outside this development. -/
inductive Handler where
  | SignUp
  | Login
  | ProductView
  | Search
  | AddProduct
  | AddToCart
  | RemoveItem
  | CartCheckout
  | InstantBuy
deriving DecidableEq

end controllers

namespace gin

/-- A `gin.HandlerFunc` of this program: the two middlewares of `gin.Default()`, the two
of package `middleware`, or a handler of package `controllers`. -/
inductive HandlerFunc where
  | logger
  | recovery
  | cors
  | authentication
  | controller (h : controllers.Handler)
deriving DecidableEq

/-- Go `HandlersChain`. -/
abbrev HandlersChain := List HandlerFunc

/-- Go `joinPaths`. -/
def joinPaths (absolutePath relativePath : String) : String :=
  if relativePath = "" then absolutePath
  else
    let finalPath := path.Join absolutePath relativePath
    if relativePath.data.getLast? = some path.slash ∧ finalPath.data.getLast? ≠ some path.slash
    then finalPath ++ "/"
    else finalPath

/-- Go `RouterGroup`: the handlers every route of the group starts with, and the group's
base path. -/
structure RouterGroup where
  Handlers : HandlersChain
  basePath : String

/-- A registered route: method, absolute path and the full chain run for it. -/
structure RouteInfo where
  Method : String
  Path : String
  Handlers : HandlersChain
deriving DecidableEq

/-- Go `Engine`: it embeds the root `RouterGroup` and holds the registered routes, in
registration order, and the switch for trailing-slash redirects. -/
structure Engine extends RouterGroup where
  trees : List RouteInfo
  RedirectTrailingSlash : Bool

/-- Go `gin.New()`. -/
def New : Engine :=
  { Handlers := [], basePath := "/", trees := [], RedirectTrailingSlash := true }

/-- Go `engine.Use(middleware...)`: appended to the root group's handlers. -/
def Engine.Use (engine : Engine) (middleware : HandlersChain) : Engine :=
  { engine with Handlers := engine.Handlers ++ middleware }

/-- Go `gin.Default()`: `New()` with `Logger()` and `Recovery()`. -/
def Default : Engine := New.Use [.logger, .recovery]

/-- Go `router.Group(relativePath)`: the new group copies the handlers the engine has at this
moment and joins the paths. -/
def Engine.Group (engine : Engine) (relativePath : String) : RouterGroup :=
  ⟨engine.Handlers, joinPaths engine.basePath relativePath⟩

/-- Go `group.handle(httpMethod, relativePath, handlers)`: the route is added to the engine
with the group's handlers in front of its own. -/
def RouterGroup.handle (group : RouterGroup) (engine : Engine) (httpMethod relativePath : String)
    (handlers : HandlersChain) : Engine :=
  { engine with
    trees := engine.trees ++
      [⟨httpMethod, joinPaths group.basePath relativePath, group.Handlers ++ handlers⟩] }

/-- Go `group.POST(relativePath, handler)`. -/
def RouterGroup.POST (group : RouterGroup) (engine : Engine) (relativePath : String)
    (handler : HandlerFunc) : Engine :=
  group.handle engine "POST" relativePath [handler]

/-- Go `group.GET(relativePath, handler)`. -/
def RouterGroup.GET (group : RouterGroup) (engine : Engine) (relativePath : String)
    (handler : HandlerFunc) : Engine :=
  group.handle engine "GET" relativePath [handler]

/-- The route registered for a method and path, if any.  The match is exact: the routes of
this program have no parameters or wildcards. -/
def Engine.getRoute (engine : Engine) (httpMethod rPath : String) : Option RouteInfo :=
  engine.trees.find? (fun r => decide (r.Method = httpMethod ∧ r.Path = rPath))

/-- The path with its trailing slash removed when it has one (and is longer than `/`), and
with a trailing slash added otherwise: the target of `redirectTrailingSlash`. -/
def trailingSlashPath (rPath : String) : String :=
  if 1 < rPath.data.length ∧ rPath.data.getLast? = some path.slash
  then String.mk rPath.data.dropLast
  else rPath ++ "/"

/-- The trailing-slash recommendation of the route tree: no handler is registered for the
path itself, but one is registered, for the same method, for the path with the trailing
slash added or removed. -/
def Engine.tsr (engine : Engine) (httpMethod rPath : String) : Bool :=
  (engine.getRoute httpMethod (trailingSlashPath rPath)).isSome

end gin

/-! ## `middleware` and request handling -/

namespace middleware

/-- The identity attributes embedded in a signed token. -/
structure Claims where
  uid : String
  email : String
  role : String
deriving DecidableEq

/-- The ways token verification fails. -/
inductive AuthError where
  | MissingToken
  | InvalidSignature
  | Expired
  | Malformed
deriving DecidableEq

/-- Go `middleware.CORSMiddleware()`. -/
def CORSMiddleware : gin.HandlerFunc := .cors

/-- Go `middleware.AuthenticationMiddleware()`. -/
def AuthenticationMiddleware : gin.HandlerFunc := .authentication

end middleware

namespace gin

/-- An incoming request: method, path and the token it carries, if any. -/
structure Request where
  Method : String
  Path : String
  token : Option String

/-- What happens to a request, in order. -/
inductive Event where
  | tokenCheck
  | roleCheck
  | abortWithStatus (code : Nat)
  | reached (h : controllers.Handler)
  | redirect (code : Nat) (location : String)
  | notFound
deriving DecidableEq

/-- Go `gin.Context` as far as dispatch needs it: the events so far, whether the chain was
aborted, and the identity the middleware attached. -/
structure Context where
  events : List Event
  aborted : Bool
  identity : Option middleware.Claims

/-- A fresh context. -/
def Context.reset : Context := ⟨[], false, none⟩

end gin

namespace middleware

/-- Modelled from the spec: the body of `middleware.CORSMiddleware` is not among the
sources.  The specification treats the CORS header policy as an external collaborator that
rejects nothing: the request goes on to the next handler. -/
def cors (c : gin.Context) : gin.Context := c

/-- Modelled from the spec: which routes are role-based is not in the sources.  The HTTP
surface table gives the requirement `token+admin role` to `/admin/add_product` and `token`
or `none` to every other row: the role a request must carry, if any. -/
def requiredRole (req : gin.Request) : Option String :=
  if req.Path = "/admin/add_product" then some "admin" else none

/-- Modelled from the spec: the body of `middleware.AuthenticationMiddleware` is not among
the sources.  Section 4.3: for every request except signup/login, (1) extract the token,
failing with `MissingToken` (401) if absent; (2) delegate to the token verifier and on any
verification error reject with 401 without reaching the handler; (3) on success attach the
decoded identity to the request context.  Role-based routes additionally check the role
claim and fail with `Forbidden` (403) if the role mismatches.  `VerifyToken` is the token
verifier of section 4.2, a parameter. -/
def authenticate (VerifyToken : String → Except AuthError Claims) (req : gin.Request)
    (c : gin.Context) : gin.Context :=
  if req.Path = "/users/signup" ∨ req.Path = "/users/login" then c
  else
    match req.token with
    | none => { c with events := c.events ++ [.tokenCheck, .abortWithStatus 401], aborted := true }
    | some t =>
      match VerifyToken t with
      | .error _ =>
        { c with events := c.events ++ [.tokenCheck, .abortWithStatus 401], aborted := true }
      | .ok claims =>
        match requiredRole req with
        | none => { c with events := c.events ++ [.tokenCheck], identity := some claims }
        | some role =>
          if claims.role = role then
            { c with events := c.events ++ [.tokenCheck, .roleCheck], identity := some claims }
          else
            { c with
              events := c.events ++ [.tokenCheck, .roleCheck, .abortWithStatus 403],
              aborted := true, identity := some claims }

end middleware

namespace gin

/-- One handler of a chain run on a request.  `Logger` and `Recovery` let every request
through; a controller handler is reached. -/
def HandlerFunc.run (VerifyToken : String → Except middleware.AuthError middleware.Claims)
    (req : Request) : HandlerFunc → Context → Context
  | .logger, c => c
  | .recovery, c => c
  | .cors, c => middleware.cors c
  | .authentication, c => middleware.authenticate VerifyToken req c
  | .controller h, c => { c with events := c.events ++ [.reached h] }

/-- Go `c.Next()`: the handlers run in order until one aborts. -/
def Context.Next (VerifyToken : String → Except middleware.AuthError middleware.Claims)
    (req : Request) : HandlersChain → Context → Context
  | [], c => c
  | h :: hs, c =>
    let c' := h.run VerifyToken req c
    if c'.aborted then c' else Context.Next VerifyToken req hs c'

/-- Go `engine.ServeHTTP` (`handleHTTPRequest`): the chain of the matching route is run.
When no route matches but the path differs from a registered route of the same method by
a trailing slash only, the request is redirected (301 for `GET`, 307 otherwise) and no
handler runs, not even the middleware.  Otherwise the engine-level middleware runs and,
unless it aborted, the answer is 404.  (The `X-Forwarded-Prefix` header, which only changes
the redirect location, is left out.) -/
def Engine.ServeHTTP (engine : Engine)
    (VerifyToken : String → Except middleware.AuthError middleware.Claims) (req : Request) :
    Context :=
  match engine.getRoute req.Method req.Path with
  | some r => Context.Next VerifyToken req r.Handlers Context.reset
  | none =>
    if req.Method ≠ "CONNECT" ∧ req.Path ≠ "/" ∧ engine.tsr req.Method req.Path = true ∧
        engine.RedirectTrailingSlash = true then
      { Context.reset with
        events := [.redirect (if req.Method = "GET" then 301 else 307)
          (trailingSlashPath req.Path)] }
    else
      let c := Context.Next VerifyToken req engine.Handlers Context.reset
      if c.aborted then c else { c with events := c.events ++ [.notFound] }

end gin

/-! ## `routes/routes.go` -/

namespace routes

open controllers.Handler

def UserRoutes (router : gin.Engine) : gin.Engine :=
  let userRoutes := router.Group "/users"
  let router := userRoutes.POST router "/signup" (.controller SignUp)
  let router := userRoutes.POST router "/login" (.controller Login)
  let router := userRoutes.GET router "/product_view" (.controller ProductView)
  let router := userRoutes.GET router "/search" (.controller Search)
  let adminRoutes := router.Group "/admin"
  let router := adminRoutes.POST router "/add_product" (.controller AddProduct)
  router

def CartRoutes (router : gin.Engine) : gin.Engine :=
  let cartRoutes := router.Group "/cart"
  let router := cartRoutes.POST router "/add_to_cart" (.controller AddToCart)
  let router := cartRoutes.POST router "/remove_item" (.controller RemoveItem)
  let router := cartRoutes.POST router "/cart_checkout" (.controller CartCheckout)
  let router := cartRoutes.POST router "/instant_buy" (.controller InstantBuy)
  router

end routes

/-! ## `main.go` -/

namespace main

/-- The router of `main` at the moment `router.Run` is called: `gin.Default()`, the two
`router.Use` calls, then `routes.UserRoutes(router)`.  (`database.ConnectDB()` and the
port do not touch the router; when the `.env` file cannot be loaded `main` exits before
any of this.) -/
def router : gin.Engine :=
  let router := gin.Default
  let router := router.Use [middleware.CORSMiddleware]
  let router := router.Use [middleware.AuthenticationMiddleware]
  let router := routes.UserRoutes router
  router

end main

/-! ## The HTTP surface table of the specification -/

namespace spec

/-- The method/path pairs of the HTTP surface table, row by row. -/
def surface : List (String × String) :=
  [ ("POST", "/users/signup"),
    ("POST", "/users/login"),
    ("GET", "/users/product_view"),
    ("GET", "/users/search"),
    ("POST", "/admin/add_product"),
    ("POST", "/cart/add_to_cart"),
    ("POST", "/cart/remove_item"),
    ("POST", "/cart/cart_checkout"),
    ("POST", "/cart/instant_buy") ]

/-- The rows of the surface table for which an engine has no registered route. -/
def unregistered (engine : gin.Engine) : List (String × String) :=
  surface.filter (fun r => (engine.getRoute r.1 r.2).isNone)

end spec

/-! ## Concrete values used to instantiate the theorems -/

namespace sample

open models

/-- A stand-in for the library's two format checks that accepts one e-mail address and one
URL, both of which the library accepts too. -/
def validate : validator.Validate :=
  validator.New (fun s => decide (s = "an@example.com"))
    (fun s => decide (s = "https://example.com/p.png"))

/-- A non-zero object id. -/
def oid : primitive.ObjectID := ⟨7, by decide⟩

/-- An address with every required field set. -/
def address : Address := ⟨0, oid, "1 Main St", "Hue", "TT", "49000", "VN", 0, 0⟩

/-- A user with every field valid. -/
def user : User :=
  ⟨0, "An", "Le", "abc", "longenough", "an@example.com", "0123", address, "", "", 0, 0⟩

/-- The signup input with username `abc` and password `short`; nothing else is set. -/
def signupShort : User :=
  ⟨0, "", "", "abc", "short", "", "", ⟨0, 0, "", "", "", "", "", 0, 0⟩, "", "", 0, 0⟩

/-- The valid user with the password left empty. -/
def userNoPassword : User := { user with Password := "" }

/-- The valid user with the owner id of the embedded address left unset. -/
def userUnownedAddress : User := { user with Address := { address with UserID := 0 } }

/-- A valid pending order. -/
def order : Order := ⟨0, oid, some [oid], .finite 10, Digital, Pending, 0, 0⟩

/-- The order built from an empty cart. -/
def orderEmptyCart : Order := { order with ProductIDs := some [] }

/-- A delivered order. -/
def orderDelivered : Order := { order with OrderStatus := Delivered }

/-- The delivered order after its status is set back to pending. -/
def orderDeliveredToPending : Order := { orderDelivered with OrderStatus := Pending }

/-- A product with rating `5`. -/
def product : Product :=
  ⟨0, "Mug", "A mug", .finite 3, .finite 5, "https://example.com/p.png", 0, 0⟩

/-- A token verifier that accepts exactly one token, issued to a user whose role is
`user`. -/
def VerifyToken (t : String) : Except middleware.AuthError middleware.Claims :=
  if t = "user-token" then .ok ⟨"u1", "an@example.com", "user"⟩ else .error .InvalidSignature

/-- The claims of the accepted token. -/
def userClaims : middleware.Claims := ⟨"u1", "an@example.com", "user"⟩

/-- Add-product called with the valid token of a non-admin user. -/
def addProductRequest : gin.Request := ⟨"POST", "/admin/add_product", some "user-token"⟩

/-- Signup called without a token. -/
def signupRequest : gin.Request := ⟨"POST", "/users/signup", none⟩

/-- The product list asked for without a token. -/
def productViewRequest : gin.Request := ⟨"GET", "/users/product_view", none⟩

/-- Signup asked for with a trailing slash and without a token. -/
def signupSlashRequest : gin.Request := ⟨"POST", "/users/signup/", none⟩

/-- Add-to-cart called with a valid token. -/
def addToCartRequest : gin.Request := ⟨"POST", "/cart/add_to_cart", some "user-token"⟩

end sample

/-! ## The order-status transitions the specification describes -/

namespace spec

/-- The status changes of the data-model section: Pending → Shipped → Delivered, or →
Canceled from Pending or Shipped; leaving the status as it is counts as allowed. -/
def allowedTransition (old new : models.OrderStatus) : Bool :=
  decide (old = new) ||
  decide (old = models.Pending ∧ new = models.Shipped) ||
  decide (old = models.Shipped ∧ new = models.Delivered) ||
  decide (old = models.Pending ∧ new = models.Canceled) ||
  decide (old = models.Shipped ∧ new = models.Canceled)

end spec

/-! ## Theorems -/

namespace validator

/-- The method `Struct` returns `nil` exactly when the walk collects no error. -/
theorem Struct_eq_none_iff (v : Validate) (n : String) (ms : List Member) :
    v.Struct n ms = none ↔ traverseMembers v (n ++ ".") ms = [] := by
  unfold Validate.Struct
  cases traverseMembers v (n ++ ".") ms <;> simp

/-- A field contributes no error exactly when its first failing tag does not exist. -/
theorem traverseField_eq_nil_iff (v : Validate) (ns : String) (f : Field) :
    traverseField v ns f = [] ↔ firstFailure v f.tags f.value = none := by
  unfold traverseField
  cases firstFailure v f.tags f.value <;> simp

end validator

namespace validator

/-- No tag of a field fails exactly when every tag's check holds. -/
theorem firstFailure_eq_none_iff (v : Validate) (ts : List Tag) (x : Value) :
    firstFailure v ts x = none ↔ ∀ t ∈ ts, t.fn v x = true := by
  induction ts with
  | nil => simp [firstFailure]
  | cons t ts ih =>
    by_cases h : t.fn v x = true <;> simp [firstFailure, h, ih]

/-- The fields of a struct produce no error exactly when no field has a failing tag. -/
theorem validateStruct_eq_nil_iff (v : Validate) (ns : String) (fs : List Field) :
    validateStruct v ns fs = [] ↔ ∀ f ∈ fs, firstFailure v f.tags f.value = none := by
  induction fs with
  | nil => simp [validateStruct]
  | cons f fs ih => simp [validateStruct, traverseField_eq_nil_iff, ih]

/-- Walking members that are all plain fields is `validateStruct`. -/
theorem traverseMembers_map_field (v : Validate) (ns : String) (fs : List Field) :
    traverseMembers v ns (fs.map .field) = validateStruct v ns fs := by
  induction fs with
  | nil => rfl
  | cons f fs ih => simp [traverseMembers, traverseMember, validateStruct, ih]

/-- A struct of plain fields validates exactly when every tag of every field holds. -/
theorem Struct_fields_eq_none_iff (v : Validate) (n : String) (fs : List Field) :
    v.Struct n (fs.map .field) = none ↔ ∀ f ∈ fs, ∀ t ∈ f.tags, t.fn v f.value = true := by
  rw [Struct_eq_none_iff, traverseMembers_map_field, validateStruct_eq_nil_iff]
  simp only [firstFailure_eq_none_iff]

/-- The error of a field with a failing tag is among the errors of the struct's fields. -/
theorem mem_validateStruct (v : Validate) (ns : String) (fs : List Field) (f : Field) (t : Tag)
    (hf : f ∈ fs) (ht : firstFailure v f.tags f.value = some t) :
    (⟨ns ++ f.name, f.name, t⟩ : FieldError) ∈ validateStruct v ns fs := by
  induction fs with
  | nil => cases hf
  | cons g gs ih =>
    rcases List.mem_cons.mp hf with h | h
    · subst h
      simp [validateStruct, traverseField, ht]
    · simp only [validateStruct, List.mem_append]
      exact Or.inr (ih h)

/-- The errors of a member are among the errors of the walk. -/
theorem mem_traverseMembers (v : Validate) (ns : String) (ms : List Member) (m : Member)
    (e : FieldError) (hm : m ∈ ms) (he : e ∈ traverseMember v ns m) :
    e ∈ traverseMembers v ns ms := by
  induction ms with
  | nil => cases hm
  | cons g gs ih =>
    simp only [traverseMembers, List.mem_append]
    rcases List.mem_cons.mp hm with h | h
    · subst h
      exact Or.inl he
    · exact Or.inr (ih h)

/-- An error collected by the walk is returned by `Struct`. -/
theorem Struct_some_of_mem (v : Validate) (n : String) (ms : List Member) (e : FieldError)
    (he : e ∈ traverseMembers v (n ++ ".") ms) :
    ∃ errs, v.Struct n ms = some errs ∧ e ∈ errs := by
  unfold Validate.Struct
  cases h : traverseMembers v (n ++ ".") ms with
  | nil => rw [h] at he; cases he
  | cons a as => exact ⟨a :: as, rfl, h ▸ he⟩

/-- A failing tag of a plain field member shows up in the error `Struct` returns. -/
theorem Struct_reports (v : Validate) (n : String) (ms : List Member) (f : Field) (t : Tag)
    (hf : Member.field f ∈ ms) (ht : firstFailure v f.tags f.value = some t) :
    ∃ errs, v.Struct n ms = some errs ∧
      (⟨n ++ "." ++ f.name, f.name, t⟩ : FieldError) ∈ errs := by
  apply Struct_some_of_mem
  apply mem_traverseMembers v _ ms (.field f) _ hf
  simp [traverseMember, traverseField, ht]

/-- A string has length zero exactly when it is the empty string. -/
theorem length_eq_zero_iff (s : String) : s.length = 0 ↔ s = "" := by
  cases s with
  | mk l => cases l <;> simp [String.length, String.ext_iff]

end validator

namespace models

open validator

/-- Claim C1: an order whose product-id list is nil or empty is rejected by
`Order.Validate`, whatever its other fields, and the returned error has an entry for the
field `ProductIDs`. -/
theorem Order_Validate_rejects_empty_ProductIDs (validate : validator.Validate) (o : Order)
    (h : o.ProductIDs = none ∨ o.ProductIDs = some []) :
    ∃ errs, o.Validate validate = some errs ∧ ∃ e ∈ errs, e.field = "ProductIDs" := by
  have hmem : Member.field ⟨"ProductIDs", [.required, .min 1], .slice o.ProductIDs⟩ ∈
      o.fields.map Member.field := by simp [Order.fields]
  rcases h with h | h
  · obtain ⟨errs, he, hin⟩ := Struct_reports validate "Order" _ _ .required hmem
      (by simp [h, firstFailure, Tag.fn, hasValue])
    exact ⟨errs, he, _, hin, rfl⟩
  · obtain ⟨errs, he, hin⟩ := Struct_reports validate "Order" _ _ (.min 1) hmem
      (by simp [h, firstFailure, Tag.fn, hasValue, isGte])
    exact ⟨errs, he, _, hin, rfl⟩

/-- Witness of C1: the order built from an empty cart is rejected. -/
theorem Order_Validate_rejects_empty_ProductIDs_witness :
    ∃ errs, sample.orderEmptyCart.Validate sample.validate = some errs ∧
      ∃ e ∈ errs, e.field = "ProductIDs" :=
  Order_Validate_rejects_empty_ProductIDs sample.validate sample.orderEmptyCart
    (Or.inr (by decide))

/-- Counterexample to C2 as stated: the empty password has fewer than 8 characters, the
user is rejected, but the only error reports the password field as failing `required`; no
entry reports the minimum length of 8. -/
theorem User_Validate_empty_password_reports_required :
    sample.userNoPassword.Password.length < 8 ∧
    sample.userNoPassword.Validate sample.validate =
      some [⟨"User.Password", "Password", .required⟩] ∧
    ¬ ∃ errs, sample.userNoPassword.Validate sample.validate = some errs ∧
      (⟨"User.Password", "Password", .min 8⟩ : FieldError) ∈ errs := by
  have h : sample.userNoPassword.Validate sample.validate =
      some [⟨"User.Password", "Password", .required⟩] := by decide
  refine ⟨by decide, h, ?_⟩
  rintro ⟨errs, he, hin⟩
  rw [h] at he
  cases he
  revert hin
  decide

/-- Claim C2, amended: a user whose password has fewer than 8 characters is rejected by
`User.Validate`; the error has an entry for the password field, which reports the minimum
length of 8 when the password is non-empty and the tag `required` when it is empty. -/
theorem User_Validate_short_password (validate : validator.Validate) (u : User)
    (h : u.Password.length < 8) :
    ∃ errs, u.Validate validate = some errs ∧
      (⟨"User.Password", "Password", if u.Password = "" then .required else .min 8⟩ :
        FieldError) ∈ errs := by
  have hmem : Member.field ⟨"Password", [.required, .min 8], .string u.Password⟩ ∈
      u.members := by simp [User.members]
  by_cases hp : u.Password = ""
  · simpa [hp] using Struct_reports validate "User" _ _ .required hmem
      (by simp [hp, firstFailure, Tag.fn, hasValue])
  · have hlen : ¬ 8 ≤ u.Password.length := by omega
    simpa [hp] using Struct_reports validate "User" _ _ (.min 8) hmem
      (by simp [hp, hlen, firstFailure, Tag.fn, hasValue, isGte])

/-- Witness of C2: the signup input with username `abc` and password `short` is rejected
and the error reports the password field as shorter than the minimum length of 8. -/
theorem User_Validate_short_password_witness :
    ∃ errs, sample.signupShort.Validate sample.validate = some errs ∧
      (⟨"User.Password", "Password", .min 8⟩ : FieldError) ∈ errs :=
  User_Validate_short_password sample.validate sample.signupShort (by decide)

/-- A float that is greater than zero is not zero. -/
theorem Float64_isZero_of_gt (f : Float64) (h : f.gt 0 = true) : f.isZero = false := by
  cases f with
  | finite q =>
    simp only [Float64.gt, decide_eq_true_eq] at h
    simp [Float64.isZero, ne_of_gt h]
  | _ => rfl

/-- A float that is below a bound is not at or above it. -/
theorem Float64_ge_of_lt (f : Float64) (p : ℚ) (h : f.lt p = true) : f.ge p = false := by
  cases f with
  | finite q =>
    simp only [Float64.lt, decide_eq_true_eq] at h
    simp [Float64.ge, h]
  | _ => first | rfl | cases h

/-- A float that is above a bound is not at or below it. -/
theorem Float64_le_of_gt (f : Float64) (p : ℚ) (h : f.gt p = true) : f.le p = false := by
  cases f with
  | finite q =>
    simp only [Float64.gt, decide_eq_true_eq] at h
    simp [Float64.le, h]
  | _ => first | rfl | cases h

/-- Counterexample to C6 as stated: a delivered order and the same order with its status
set back to pending both pass `Order.Validate`, and Delivered → Pending is not one of the
transitions of the specification. -/
theorem Order_Validate_accepts_Delivered_to_Pending :
    sample.orderDelivered.Validate sample.validate = none ∧
    sample.orderDeliveredToPending.Validate sample.validate = none ∧
    sample.orderDelivered.OrderStatus = Delivered ∧
    sample.orderDeliveredToPending.OrderStatus = Pending ∧
    spec.allowedTransition sample.orderDelivered.OrderStatus
      sample.orderDeliveredToPending.OrderStatus = false := by
  refine ⟨by decide, by decide, rfl, rfl, by decide⟩

/-- Claim C6, amended: `Order.Validate` looks at one order state only.  For every old and
new state that pass it, the new status is one of Pending, Shipped, Delivered, Canceled, and
the new state still passes with its status replaced by any of the four: no change between
the four statuses is refused, whatever the old status was. -/
theorem Order_Validate_status_unconstrained (validate : validator.Validate) (old new : Order)
    (_hold : old.Validate validate = none) (hnew : new.Validate validate = none) :
    new.OrderStatus ∈ [Pending, Shipped, Delivered, Canceled] ∧
    ∀ s ∈ [Pending, Shipped, Delivered, Canceled],
      ({ new with OrderStatus := s } : Order).Validate validate = none := by
  simp only [Order.Validate, Struct_fields_eq_none_iff, Order.fields, List.forall_mem_cons,
    List.not_mem_nil, false_imp_iff, implies_true, and_true, Tag.fn, isOneOf,
    decide_eq_true_eq] at hnew
  obtain ⟨h1, h2, h3, h4, _, h6⟩ := hnew
  refine ⟨by simpa [Pending, Shipped, Delivered, Canceled] using h6, ?_⟩
  intro s hs
  simp only [Order.Validate, Struct_fields_eq_none_iff, Order.fields, List.forall_mem_cons,
    List.not_mem_nil, false_imp_iff, implies_true, and_true, Tag.fn, isOneOf,
    decide_eq_true_eq]
  refine ⟨h1, h2, h3, h4, ?_, by simpa [Pending, Shipped, Delivered, Canceled] using hs⟩
  simp only [Pending, Shipped, Delivered, Canceled, List.mem_cons, List.mem_singleton,
    List.not_mem_nil, or_false] at hs
  rcases hs with h | h | h | h <;> subst h <;> decide

/-- Witness of C6: the delivered order and its pending successor pass, and the successor
may take any of the four statuses. -/
theorem Order_Validate_status_unconstrained_witness :
    sample.orderDeliveredToPending.OrderStatus ∈ [Pending, Shipped, Delivered, Canceled] ∧
    ∀ s ∈ [Pending, Shipped, Delivered, Canceled],
      ({ sample.orderDeliveredToPending with OrderStatus := s } : Order).Validate
        sample.validate = none :=
  Order_Validate_status_unconstrained sample.validate sample.orderDelivered
    sample.orderDeliveredToPending (by decide) (by decide)

/-- Claim C7: for an address with a non-zero user id, `Address.Validate` returns no error
exactly when street, city, state, zip code and country are all non-empty. -/
theorem Address_Validate_eq_none_iff (validate : validator.Validate) (a : Address)
    (h : a.UserID ≠ primitive.NilObjectID) :
    a.Validate validate = none ↔
      a.Street ≠ "" ∧ a.City ≠ "" ∧ a.State ≠ "" ∧ a.ZipCode ≠ "" ∧ a.Country ≠ "" := by
  rw [Address.Validate, Struct_fields_eq_none_iff]
  simp [Address.fields, Tag.fn, hasValue, h]

/-- Witness of C7: the sample address has a non-zero user id and all five fields set. -/
theorem Address_Validate_eq_none_iff_witness :
    sample.address.Validate sample.validate = none :=
  (Address_Validate_eq_none_iff sample.validate sample.address (by decide)).mpr (by decide)

/-- Claim C8: `Product.Validate` returns an error when the price is not greater than 0 and
when the rating is below 0 or above 5; a product with non-empty name and description, a
non-empty image string that passes the URL check, a price greater than 0 and a rating of
exactly 0 or exactly 5 is accepted. -/
theorem Product_Validate_price_rating (validate : validator.Validate) (p : Product) :
    (p.Price.gt 0 = false → p.Validate validate ≠ none) ∧
    (p.Rating.lt 0 = true ∨ p.Rating.gt 5 = true → p.Validate validate ≠ none) ∧
    (p.Name ≠ "" → p.Description ≠ "" → p.Image ≠ "" → validate.isURL p.Image = true →
      p.Price.gt 0 = true → (p.Rating = .finite 0 ∨ p.Rating = .finite 5) →
      p.Validate validate = none) := by
  simp only [Product.Validate, ne_eq, Struct_fields_eq_none_iff, Product.fields,
    List.forall_mem_cons, List.not_mem_nil, false_imp_iff, implies_true, and_true, Tag.fn,
    hasValue, isGt, isGte, isLte, Nat.cast_zero, Nat.cast_ofNat]
  refine ⟨?_, ?_, ?_⟩
  · intro h
    simp [h]
  · rintro (h | h)
    · simp [Float64_ge_of_lt _ _ h]
    · simp [Float64_le_of_gt _ _ h]
  · intro h1 h2 h3 h4 h5 h6
    refine ⟨by simpa using h1, by simpa using h2, ⟨by simp [Float64_isZero_of_gt _ h5], h5⟩,
      ?_, by simpa using h3, h4⟩
    rcases h6 with h | h <;> simp [h, Float64.ge, Float64.le]

/-- Witness of C8: the sample product (price 3, rating 5) is accepted, and the same
product with rating 6 or with price 0 is rejected. -/
theorem Product_Validate_price_rating_witness :
    sample.product.Validate sample.validate = none ∧
    ({ sample.product with Rating := .finite 6 } : Product).Validate sample.validate ≠ none ∧
    ({ sample.product with Price := .finite 0 } : Product).Validate sample.validate ≠ none :=
  ⟨(Product_Validate_price_rating sample.validate sample.product).2.2
      (by decide) (by decide) (by decide) (by decide) (by decide) (Or.inr rfl),
    (Product_Validate_price_rating sample.validate _).2.1 (Or.inr (by decide)),
    (Product_Validate_price_rating sample.validate _).1 (by decide)⟩

/-- Claim C9: for an order with a non-zero user id, a non-empty product-id list and a total
price greater than 0, `Order.Validate` returns no error exactly when the payment method is
`Digital` or `COD` and the status is `Pending`, `Shipped`, `Delivered` or `Canceled`,
compared as exact strings. -/
theorem Order_Validate_eq_none_iff (validate : validator.Validate) (o : Order)
    (hu : o.UserID ≠ primitive.NilObjectID)
    (hp : ∃ id ids, o.ProductIDs = some (id :: ids))
    (ht : o.TotalPrice.gt 0 = true) :
    o.Validate validate = none ↔
      (o.PaymentMethod = "Digital" ∨ o.PaymentMethod = "COD") ∧
      (o.OrderStatus = "Pending" ∨ o.OrderStatus = "Shipped" ∨ o.OrderStatus = "Delivered" ∨
        o.OrderStatus = "Canceled") := by
  obtain ⟨id, ids, hp⟩ := hp
  simp only [Order.Validate, Struct_fields_eq_none_iff, Order.fields, List.forall_mem_cons,
    List.not_mem_nil, false_imp_iff, implies_true, and_true, Tag.fn, hasValue, isGt, isGte,
    isOneOf, hp, Nat.cast_zero, ht, Float64_isZero_of_gt _ ht]
  simp only [hu, ne_eq, not_false_eq_true, decide_True, Option.isSome_some, Option.getD_some,
    List.length_cons, Nat.le_add_left, Bool.not_false, and_self, true_and, decide_eq_true_eq,
    List.mem_cons, List.mem_singleton, List.not_mem_nil, or_false]
  constructor
  · rintro ⟨⟨_, h1⟩, _, h2⟩
    exact ⟨h1, h2⟩
  · rintro ⟨h1, h2⟩
    refine ⟨⟨?_, h1⟩, ?_, h2⟩
    · rcases h1 with h | h <;> rw [h] <;> decide
    · rcases h2 with h | h | h | h <;> rw [h] <;> decide

/-- Witness of C9: the sample order is accepted; with the payment method in lower case or
the status left empty it is rejected. -/
theorem Order_Validate_eq_none_iff_witness :
    sample.order.Validate sample.validate = none ∧
    ({ sample.order with PaymentMethod := "digital" } : Order).Validate sample.validate ≠ none ∧
    ({ sample.order with OrderStatus := "" } : Order).Validate sample.validate ≠ none :=
  ⟨(Order_Validate_eq_none_iff sample.validate sample.order (by decide) ⟨_, _, rfl⟩
      (by decide)).mpr (by decide),
    fun h => absurd ((Order_Validate_eq_none_iff sample.validate _ (by decide) ⟨_, _, rfl⟩
      (by decide)).mp h) (by decide),
    fun h => absurd ((Order_Validate_eq_none_iff sample.validate _ (by decide) ⟨_, _, rfl⟩
      (by decide)).mp h) (by decide)⟩

/-- The errors of a struct's fields do not depend on the namespace they are reported in. -/
theorem validateStruct_eq_nil_ns (v : validator.Validate) (ns ns' : String) (fs : List Field)
    (h : validateStruct v ns fs = []) : validateStruct v ns' fs = [] := by
  rw [validateStruct_eq_nil_iff] at h ⊢
  exact h

/-- Claim C10: `User.Validate` validates the embedded address with the rules of `Address`:
if it returns no error then `Address.Validate` on the embedded address returns no error;
so a user whose embedded address has a zero user id or an empty street, city, state, zip
code or country is rejected, whatever the user's own fields. -/
theorem User_Validate_validates_Address (validate : validator.Validate) (u : User) :
    (u.Validate validate = none → u.Address.Validate validate = none) ∧
    (u.Address.UserID = primitive.NilObjectID ∨ u.Address.Street = "" ∨ u.Address.City = "" ∨
      u.Address.State = "" ∨ u.Address.ZipCode = "" ∨ u.Address.Country = "" →
      u.Validate validate ≠ none) := by
  have key : u.Validate validate = none → u.Address.Validate validate = none := by
    intro h
    rw [User.Validate, Struct_eq_none_iff] at h
    simp only [User.members, traverseMembers, traverseMember, List.append_eq_nil,
      and_true] at h
    rw [Address.Validate, Struct_eq_none_iff, traverseMembers_map_field]
    exact validateStruct_eq_nil_ns validate _ _ _ h.2.2.2.2.2.2
  refine ⟨key, fun hbad hok => ?_⟩
  have ha := key hok
  simp only [Address.Validate, Struct_fields_eq_none_iff, Address.fields,
    List.forall_mem_cons, List.not_mem_nil, false_imp_iff, implies_true, and_true, Tag.fn,
    hasValue, decide_eq_true_eq] at ha
  obtain ⟨h0, h1, h2, h3, h4, h5⟩ := ha
  rcases hbad with h | h | h | h | h | h
  · exact h0 h
  · exact h1 h
  · exact h2 h
  · exact h3 h
  · exact h4 h
  · exact h5 h

/-- Witness of C10: the sample user is accepted and so is its address; the same user with
the owner id of the address unset is rejected. -/
theorem User_Validate_validates_Address_witness :
    sample.user.Address.Validate sample.validate = none ∧
    sample.userUnownedAddress.Validate sample.validate ≠ none :=
  ⟨(User_Validate_validates_Address sample.validate sample.user).1 (by decide),
    (User_Validate_validates_Address sample.validate sample.userUnownedAddress).2
      (Or.inl (by decide))⟩

end models

namespace gin

open controllers.Handler

/-- The routes `main` registers, each with the chain run for it. -/
theorem main_router_trees :
    main.router.trees =
      [ ⟨"POST", "/users/signup",
          [.logger, .recovery, .cors, .authentication, .controller SignUp]⟩,
        ⟨"POST", "/users/login",
          [.logger, .recovery, .cors, .authentication, .controller Login]⟩,
        ⟨"GET", "/users/product_view",
          [.logger, .recovery, .cors, .authentication, .controller ProductView]⟩,
        ⟨"GET", "/users/search",
          [.logger, .recovery, .cors, .authentication, .controller Search]⟩,
        ⟨"POST", "/admin/add_product",
          [.logger, .recovery, .cors, .authentication, .controller AddProduct]⟩ ] := by
  decide

/-- A route found for a method and path is a registered route with that method and path. -/
theorem getRoute_some (engine : Engine) (m p : String) (r : RouteInfo)
    (h : engine.getRoute m p = some r) : r ∈ engine.trees ∧ r.Method = m ∧ r.Path = p := by
  unfold Engine.getRoute at h
  have h1 := List.mem_of_find?_eq_some h
  have h2 := List.find?_some h
  simp only [decide_eq_true_eq] at h2
  exact ⟨h1, h2⟩

/-- C3, the router as `main` leaves it: the rows of the surface table without a registered
handler are exactly the four cart routes, a request to one of them is answered 404 even
with a valid token, and one call of `routes.CartRoutes`, which `main` never makes, would
register all four. -/
theorem main_router_cart_routes_unregistered :
    spec.unregistered main.router =
      [ ("POST", "/cart/add_to_cart"), ("POST", "/cart/remove_item"),
        ("POST", "/cart/cart_checkout"), ("POST", "/cart/instant_buy") ] ∧
    (main.router.ServeHTTP sample.VerifyToken sample.addToCartRequest).events =
      [.tokenCheck, .notFound] ∧
    spec.unregistered (routes.CartRoutes main.router) = [] := by
  decide

/-- Claim C4: for every request that matches a route registered by `main`, the chain ends
in the route's handler; a request to `/users/signup` or `/users/login` reaches that handler
with no token check, and a request to any other registered route goes through the token
check first: without a token the verifier accepts it is rejected with 401 by the check,
and with one it goes on, straight to the handler, or on the role-based route
`/admin/add_product` through the role check, which lets the role `admin` reach the
handler and rejects any other role with 403. -/
theorem main_router_token_check
    (VerifyToken : String → Except middleware.AuthError middleware.Claims) (req : Request)
    (r : RouteInfo) (hr : main.router.getRoute req.Method req.Path = some r) :
    ∃ h, r.Handlers.getLast? = some (.controller h) ∧
      (req.Path = "/users/signup" ∨ req.Path = "/users/login" →
        r.Method = "POST" ∧ (main.router.ServeHTTP VerifyToken req).events = [.reached h]) ∧
      (¬ (req.Path = "/users/signup" ∨ req.Path = "/users/login") →
        (∀ t claims, req.token = some t → VerifyToken t = .ok claims →
          (main.router.ServeHTTP VerifyToken req).events =
            if req.Path = "/admin/add_product" then
              if claims.role = "admin" then [.tokenCheck, .roleCheck, .reached h]
              else [.tokenCheck, .roleCheck, .abortWithStatus 403]
            else [.tokenCheck, .reached h]) ∧
        (req.token = none ∨ (∃ t e, req.token = some t ∧ VerifyToken t = .error e) →
          (main.router.ServeHTTP VerifyToken req).events =
            [.tokenCheck, .abortWithStatus 401])) := by
  obtain ⟨m, p, tok⟩ := req
  obtain ⟨hmem, hm, hp⟩ := getRoute_some _ _ _ _ hr
  simp only at hm hp hr ⊢
  subst hm hp
  unfold Engine.ServeHTTP
  simp only [hr]
  rw [main_router_trees] at hmem
  simp only [List.mem_cons, List.mem_singleton, List.not_mem_nil, or_false] at hmem
  rcases hmem with h | h | h | h | h <;> subst h
  · refine ⟨SignUp, rfl, fun _ => ⟨rfl, ?_⟩, fun h => absurd (Or.inl rfl) h⟩
    simp [Context.Next, HandlerFunc.run, middleware.authenticate, middleware.cors,
      Context.reset]
  · refine ⟨Login, rfl, fun _ => ⟨rfl, ?_⟩, fun h => absurd (Or.inr rfl) h⟩
    simp [Context.Next, HandlerFunc.run, middleware.authenticate, middleware.cors,
      Context.reset]
  · refine ⟨_, rfl, fun h => absurd h (by decide), fun _ => ⟨?_, ?_⟩⟩
    · intro t claims ht hv
      subst ht
      simp [Context.Next, HandlerFunc.run, middleware.authenticate, middleware.cors,
        middleware.requiredRole, Context.reset, hv]
    · rintro (ht | ⟨t, e, ht, hv⟩)
      · subst ht
        simp [Context.Next, HandlerFunc.run, middleware.authenticate, middleware.cors,
          Context.reset]
      · subst ht
        simp [Context.Next, HandlerFunc.run, middleware.authenticate, middleware.cors,
          Context.reset, hv]
  · refine ⟨_, rfl, fun h => absurd h (by decide), fun _ => ⟨?_, ?_⟩⟩
    · intro t claims ht hv
      subst ht
      simp [Context.Next, HandlerFunc.run, middleware.authenticate, middleware.cors,
        middleware.requiredRole, Context.reset, hv]
    · rintro (ht | ⟨t, e, ht, hv⟩)
      · subst ht
        simp [Context.Next, HandlerFunc.run, middleware.authenticate, middleware.cors,
          Context.reset]
      · subst ht
        simp [Context.Next, HandlerFunc.run, middleware.authenticate, middleware.cors,
          Context.reset, hv]
  · refine ⟨_, rfl, fun h => absurd h (by decide), fun _ => ⟨?_, ?_⟩⟩
    · intro t claims ht hv
      subst ht
      by_cases hrole : claims.role = "admin" <;>
        simp [Context.Next, HandlerFunc.run, middleware.authenticate, middleware.cors,
          middleware.requiredRole, Context.reset, hv, hrole]
    · rintro (ht | ⟨t, e, ht, hv⟩)
      · subst ht
        simp [Context.Next, HandlerFunc.run, middleware.authenticate, middleware.cors,
          Context.reset]
      · subst ht
        simp [Context.Next, HandlerFunc.run, middleware.authenticate, middleware.cors,
          Context.reset, hv]

/-- Witness of C4: signup without a token reaches `SignUp` with no token check; the
product list without a token is stopped by the token check with 401. -/
theorem main_router_token_check_witness :
    (main.router.ServeHTTP sample.VerifyToken sample.signupRequest).events =
      [.reached SignUp] ∧
    (main.router.ServeHTTP sample.VerifyToken sample.productViewRequest).events =
      [.tokenCheck, .abortWithStatus 401] := by
  constructor
  · obtain ⟨h, hl, hs, _⟩ := main_router_token_check sample.VerifyToken sample.signupRequest
      ⟨"POST", "/users/signup", [.logger, .recovery, .cors, .authentication, .controller SignUp]⟩
      (by decide)
    have hh : SignUp = h := by simpa using hl
    subst hh
    exact (hs (Or.inl rfl)).2
  · obtain ⟨h, hl, _, hs⟩ := main_router_token_check sample.VerifyToken
      sample.productViewRequest
      ⟨"GET", "/users/product_view",
        [.logger, .recovery, .cors, .authentication, .controller ProductView]⟩
      (by decide)
    exact (hs (by decide)).2 (Or.inl rfl)

/-- Claim C5: a request to `POST /admin/add_product` that carries a token the verifier
accepts and whose role is not `admin` is rejected with 403 by a role check and does not
reach `AddProduct`: the chain of the route has the authentication middleware, which makes
that check, in front of the handler. -/
theorem admin_add_product_forbidden
    (VerifyToken : String → Except middleware.AuthError middleware.Claims) (req : Request)
    (t : String) (claims : middleware.Claims)
    (hm : req.Method = "POST") (hp : req.Path = "/admin/add_product")
    (ht : req.token = some t) (hv : VerifyToken t = .ok claims)
    (hrole : claims.role ≠ "admin") :
    (main.router.getRoute req.Method req.Path).map (fun r => r.Handlers) =
      some [.logger, .recovery, .cors, .authentication, .controller AddProduct] ∧
    (main.router.ServeHTTP VerifyToken req).events =
      [.tokenCheck, .roleCheck, .abortWithStatus 403] ∧
    Event.reached AddProduct ∉ (main.router.ServeHTTP VerifyToken req).events := by
  obtain ⟨m, p, tok⟩ := req
  simp only at hm hp ht
  subst hm hp ht
  have hr : main.router.getRoute "POST" "/admin/add_product" =
      some ⟨"POST", "/admin/add_product",
        [.logger, .recovery, .cors, .authentication, .controller AddProduct]⟩ := by decide
  have hev : (main.router.ServeHTTP VerifyToken
      ⟨"POST", "/admin/add_product", some t⟩).events =
      [.tokenCheck, .roleCheck, .abortWithStatus 403] := by
    unfold Engine.ServeHTTP
    simp [hr, Context.Next, HandlerFunc.run, middleware.authenticate, middleware.cors,
      middleware.requiredRole, Context.reset, hv, hrole]
  refine ⟨by rw [hr]; rfl, hev, ?_⟩
  rw [hev]
  decide

/-- Witness of C5: add-product called with the valid token of a user whose role is `user`
is rejected with 403 after the role check. -/
theorem admin_add_product_forbidden_witness :
    (main.router.ServeHTTP sample.VerifyToken sample.addProductRequest).events =
      [.tokenCheck, .roleCheck, .abortWithStatus 403] :=
  (admin_add_product_forbidden sample.VerifyToken sample.addProductRequest
    "user-token" sample.userClaims rfl rfl rfl rfl (by decide)).2.1

/-- A request whose path differs from a registered route by a trailing slash is
redirected and runs no handler. -/
theorem trailing_slash_redirected :
    (main.router.ServeHTTP sample.VerifyToken sample.signupSlashRequest).events =
      [.redirect 307 "/users/signup"] := by
  decide

end gin
